import Mathlib

/-!
Verification of the gomcp JSON-RPC core (github.com/WePrompt/gomcp).

Shallow embedding of the server dispatch path (`server/server.go`,
`server/stdio.go`) and the client correlation engine
(`client/stdio.go`). JSON text parsing by Go's `encoding/json` is
modelled at the JSON-value level: an inbound line is `Option Json`,
where `none` stands for a line that is not valid JSON; struct-level
unmarshalling (required fields, field types, as implemented by the
generated `UnmarshalJSON` methods in the `mcp` package) is modelled
explicitly on `Json` values.
-/

namespace GoMCP

/-- JSON values. Numbers are modelled as integers (all numeric payloads
relevant to the dispatch and correlation layer are JSON-RPC ids). -/
inductive Json where
  | null : Json
  | bool (b : Bool) : Json
  | num (n : Int) : Json
  | str (s : String) : Json
  | arr (elems : List Json) : Json
  | obj (fields : List (String × Json)) : Json

/-- Prefix test on character lists, auxiliary to `goHasPrefix`. -/
def goPrefixList : List Char → List Char → Bool
  | [], _ => true
  | _ :: _, [] => false
  | c :: cs, d :: ds => c == d && goPrefixList cs ds

/-- Go `strings.HasPrefix(s, pre)`, modelled structurally on the
character lists of the two strings. -/
def goHasPrefix (s pre : String) : Bool := goPrefixList pre.data s.data

/-- Field lookup in a JSON object, modelling Go map indexing of the
`map[string]interface\x7b\x7d` produced by `json.Unmarshal`. -/
def jlookup : List (String × Json) → String → Option Json
  | [], _ => none
  | (k, v) :: rest, key => if k = key then some v else jlookup rest key

/-- mcp package: `JSONRPCVersion = "2.0"`. -/
def JSONRPCVersion : String := "2.0"

/-- mcp package: standard JSON-RPC error code constants. -/
def ErrorCodeParseError : Int := -32700

def ErrorCodeInvalidRequest : Int := -32600

def ErrorCodeMethodNotFound : Int := -32601

def ErrorCodeInvalidParams : Int := -32602

def ErrorCodeInternalError : Int := -32603

/-- Modelled from the spec: the `mcp` package's method-name constants are not
among the provided sources (only the schema types are); spec section 6 lists the
recognized method namespace. -/
def MethodInitialize : String := "initialize"

/-- Modelled from the spec: see `MethodInitialize`. -/
def MethodPing : String := "ping"

/-- Modelled from the spec: see `MethodInitialize`. -/
def MethodResourcesList : String := "resources/list"

/-- Modelled from the spec: see `MethodInitialize`. -/
def MethodResourcesRead : String := "resources/read"

/-- Modelled from the spec: see `MethodInitialize`. -/
def MethodResourcesSubscribe : String := "resources/subscribe"

/-- Modelled from the spec: see `MethodInitialize`. -/
def MethodResourcesUnsubscribe : String := "resources/unsubscribe"

/-- Modelled from the spec: see `MethodInitialize`. -/
def MethodPromptsList : String := "prompts/list"

/-- Modelled from the spec: see `MethodInitialize`. -/
def MethodPromptsGet : String := "prompts/get"

/-- Modelled from the spec: see `MethodInitialize`. -/
def MethodToolsList : String := "tools/list"

/-- Modelled from the spec: see `MethodInitialize`. -/
def MethodToolsCall : String := "tools/call"

/-- Modelled from the spec: see `MethodInitialize`. -/
def MethodLoggingSetLevel : String := "logging/setLevel"

/-- Modelled from the spec: see `MethodInitialize`. -/
def MethodCompletionComplete : String := "completion/complete"

/-- mcp package `JSONRPCRequest` (fields in Go declaration order: `Id`
of type interface, `Jsonrpc`, `Method`, `Params` of type
`json.RawMessage` with omitempty). `Params = none` models a nil
RawMessage (field absent). -/
structure JSONRPCRequest where
  Id : Json
  Jsonrpc : String
  Method : String
  Params : Option Json

/-- `JSONRPCRequest.UnmarshalJSON`: decodes into a generic map (fails on
non-object JSON, while JSON `null` leaves the map nil and skips the
required-field checks), requires the fields `id`, `jsonrpc`, `method`,
then decodes the plain struct, where a JSON null for a string field is a
no-op (zero value "") and any other non-string value is a type error. -/
def unmarshalJSONRPCRequest : Json → Except String JSONRPCRequest
  | .null => .ok ⟨.null, "", "", none⟩
  | .obj fields =>
    match jlookup fields "id" with
    | none => .error "field id in JSONRPCRequest: required"
    | some idv =>
      match jlookup fields "jsonrpc" with
      | none => .error "field jsonrpc in JSONRPCRequest: required"
      | some jv =>
        match jlookup fields "method" with
        | none => .error "field method in JSONRPCRequest: required"
        | some mv =>
          match jv, mv with
          | .str js, .str ms => .ok ⟨idv, js, ms, jlookup fields "params"⟩
          | .str js, .null => .ok ⟨idv, js, "", jlookup fields "params"⟩
          | .null, .str ms => .ok ⟨idv, "", ms, jlookup fields "params"⟩
          | .null, .null => .ok ⟨idv, "", "", jlookup fields "params"⟩
          | _, _ => .error "cannot unmarshal into JSONRPCRequest"
  | _ => .error "cannot unmarshal into map"

/-- mcp package `Notification`: the value `params` of an inbound
notification envelope decodes into (`Method`, optional `Params`). -/
structure GoNotification where
  Method : String
  Params : Option Json

/-- `json.Unmarshal(params, bNotification)` in `MCPServer.Request`:
a nil RawMessage is an unmarshal error; `Notification.UnmarshalJSON`
requires the `method` field (JSON null input skips the check and yields
the zero struct); the `params` field decodes into a nullable pointer. -/
def unmarshalNotification : Option Json → Except String GoNotification
  | none => .error "unexpected end of JSON input"
  | some .null => .ok ⟨"", none⟩
  | some (.obj fields) =>
    match jlookup fields "method" with
    | none => .error "field method in Notification: required"
    | some mv =>
      match mv with
      | .str _ | .null =>
        let m := match mv with | .str s => s | _ => ""
        match jlookup fields "params" with
        | none => .ok ⟨m, none⟩
        | some .null => .ok ⟨m, none⟩
        | some (.obj ps) => .ok ⟨m, some (.obj ps)⟩
        | some _ => .error "cannot unmarshal into NotificationParams"
      | _ => .error "cannot unmarshal method into string"
  | some _ => .error "cannot unmarshal into map"

/-- Decode of a Go `string` struct field: absent or JSON null yields the
zero value, a JSON string yields it, anything else is a type error. -/
def decodeStringField (fields : List (String × Json)) (key : String) :
    Except String String :=
  match jlookup fields key with
  | none => .ok ""
  | some .null => .ok ""
  | some (.str s) => .ok s
  | some _ => .error ("cannot unmarshal field " ++ key ++ " into string")

/-- Decode of a Go `*string` struct field: absent or JSON null yields
nil, a JSON string yields a pointer to it. -/
def decodeOptStringField (fields : List (String × Json)) (key : String) :
    Except String (Option String) :=
  match jlookup fields key with
  | none => .ok none
  | some .null => .ok none
  | some (.str s) => .ok (some s)
  | some _ => .error ("cannot unmarshal field " ++ key ++ " into string")

/-- Per-branch params decode of `struct - Cursor *string -` in
`MCPServer.Request` (a nil RawMessage is an unmarshal error; JSON null
yields the zero struct). -/
def unmarshalCursorParams : Option Json → Except String (Option String)
  | none => .error "unexpected end of JSON input"
  | some .null => .ok none
  | some (.obj fields) => decodeOptStringField fields "cursor"
  | some _ => .error "cannot unmarshal into struct"

/-- Per-branch params decode of `struct - URI string -`. -/
def unmarshalURIParams : Option Json → Except String String
  | none => .error "unexpected end of JSON input"
  | some .null => .ok ""
  | some (.obj fields) => decodeStringField fields "uri"
  | some _ => .error "cannot unmarshal into struct"

/-- Decode of a Go `map[string]string` value: each element must be a
JSON string (null leaves the zero value ""). -/
def decodeStringMap : List (String × Json) → Except String (List (String × String))
  | [] => .ok []
  | (k, v) :: rest =>
    match v with
    | .str s => (decodeStringMap rest).map (fun r => (k, s) :: r)
    | .null => (decodeStringMap rest).map (fun r => (k, "") :: r)
    | _ => .error "cannot unmarshal into map of string"

/-- Per-branch params decode for `prompts/get`:
`struct - Name string; Arguments map[string]string -`. -/
def unmarshalPromptsGetParams :
    Option Json → Except String (String × List (String × String))
  | none => .error "unexpected end of JSON input"
  | some .null => .ok ("", [])
  | some (.obj fields) => do
    let name ← decodeStringField fields "name"
    match jlookup fields "arguments" with
    | none => .ok (name, [])
    | some .null => .ok (name, [])
    | some (.obj args) => (decodeStringMap args).map (fun m => (name, m))
    | some _ => .error "cannot unmarshal arguments into map"
  | some _ => .error "cannot unmarshal into struct"

/-- Per-branch params decode for `tools/call`:
`struct - Name string; Arguments map[string]interface -` (any JSON
object is accepted for the arguments; null yields a nil map). -/
def unmarshalToolsCallParams :
    Option Json → Except String (String × Option Json)
  | none => .error "unexpected end of JSON input"
  | some .null => .ok ("", none)
  | some (.obj fields) => do
    let name ← decodeStringField fields "name"
    match jlookup fields "arguments" with
    | none => .ok (name, none)
    | some .null => .ok (name, none)
    | some (.obj args) => .ok (name, some (.obj args))
    | some _ => .error "cannot unmarshal arguments into map"
  | some _ => .error "cannot unmarshal into struct"

/-- Decoded `initialize` params: nullable pointers for capabilities and
client info (both are dereferenced unconditionally by the dispatch). -/
structure InitializeParams where
  capabilities : Option Json
  clientInfo : Option Json
  protocolVersion : String

/-- `mcp.Implementation.UnmarshalJSON`: requires `name` and `version`
(skipped for JSON null), both decoded as strings. -/
def unmarshalImplementation : Json → Except String Json
  | .null => .ok (.obj [])
  | .obj fields =>
    match jlookup fields "name", jlookup fields "version" with
    | none, _ => .error "field name in Implementation: required"
    | some _, none => .error "field version in Implementation: required"
    | some nv, some vv => do
      let _ ← match nv with
        | .str s => Except.ok s
        | .null => Except.ok ""
        | _ => Except.error "cannot unmarshal name into string"
      let _ ← match vv with
        | .str s => Except.ok s
        | .null => Except.ok ""
        | _ => Except.error "cannot unmarshal version into string"
      .ok (.obj fields)
  | _ => .error "cannot unmarshal into map"

/-- Per-branch params decode for `initialize`:
`struct - Capabilities *mcp.ClientCapabilities; ClientInfo
*mcp.Implementation; ProtocolVersion string -`. A JSON null or absent
field leaves a nil pointer. `ClientCapabilities` is a plain struct of
optional fields, so any JSON object decodes. -/
def unmarshalInitializeParams : Option Json → Except String InitializeParams
  | none => .error "unexpected end of JSON input"
  | some .null => .ok ⟨none, none, ""⟩
  | some (.obj fields) => do
    let caps ← match jlookup fields "capabilities" with
      | none => Except.ok none
      | some .null => Except.ok none
      | some (.obj cs) => Except.ok (some (Json.obj cs))
      | some _ => Except.error "cannot unmarshal capabilities"
    let info ← match jlookup fields "clientInfo" with
      | none => Except.ok none
      | some .null => Except.ok none
      | some v => (unmarshalImplementation v).map some
    let pv ← decodeStringField fields "protocolVersion"
    .ok ⟨caps, info, pv⟩
  | some _ => .error "cannot unmarshal into struct"

/-- mcp package: `enumValues_LoggingLevel`. -/
def enumValuesLoggingLevel : List String :=
  ["alert", "critical", "debug", "emergency", "error", "info", "notice", "warning"]

/-- Per-branch params decode for `logging/setLevel`:
`struct - Level mcp.LoggingLevel -`; `LoggingLevel.UnmarshalJSON`
decodes a string and rejects values outside the enum (an absent field
skips the decoder and keeps the zero value). -/
def unmarshalSetLevelParams : Option Json → Except String String
  | none => .error "unexpected end of JSON input"
  | some .null => .ok ""
  | some (.obj fields) =>
    match jlookup fields "level" with
    | none => .ok ""
    | some (.str s) =>
      if s ∈ enumValuesLoggingLevel then .ok s
      else .error "invalid value for LoggingLevel"
    | some .null => .error "invalid value for LoggingLevel"
    | some _ => .error "cannot unmarshal level into string"
  | some _ => .error "cannot unmarshal into struct"

/-- `mcp.CompleteRequestParamsArgument.UnmarshalJSON`: requires `name`
and `value`, decoded as strings. -/
def unmarshalCompleteArgumentInner : Json → Except String Json
  | .null => .ok (.obj [])
  | .obj fields =>
    match jlookup fields "name", jlookup fields "value" with
    | none, _ => .error "field name in CompleteRequestParamsArgument: required"
    | some _, none => .error "field value in CompleteRequestParamsArgument: required"
    | some nv, some vv =>
      match nv, vv with
      | .str _, .str _ | .str _, .null | .null, .str _ | .null, .null =>
        .ok (.obj fields)
      | _, _ => .error "cannot unmarshal argument fields into string"
  | _ => .error "cannot unmarshal into map"

/-- `mcp.CompleteRequestParams.UnmarshalJSON`: requires `argument` and
`ref`. -/
def unmarshalCompleteReqParams : Json → Except String Json
  | .null => .ok (.obj [])
  | .obj fields =>
    match jlookup fields "argument", jlookup fields "ref" with
    | none, _ => .error "field argument in CompleteRequestParams: required"
    | some _, none => .error "field ref in CompleteRequestParams: required"
    | some av, some _ => (unmarshalCompleteArgumentInner av).map fun _ => .obj fields
  | _ => .error "cannot unmarshal into map"

/-- `mcp.CompleteRequest.UnmarshalJSON`: requires `method` and `params`. -/
def unmarshalCompleteRequest : Json → Except String Json
  | .null => .ok (.obj [])
  | .obj fields =>
    match jlookup fields "method", jlookup fields "params" with
    | none, _ => .error "field method in CompleteRequest: required"
    | some _, none => .error "field params in CompleteRequest: required"
    | some mv, some pv => do
      let _ ← match mv with
        | .str s => Except.ok s
        | .null => Except.ok ""
        | _ => Except.error "cannot unmarshal method into string"
      let _ ← unmarshalCompleteReqParams pv
      .ok (.obj fields)
  | _ => .error "cannot unmarshal into map"

/-- Per-branch params decode for `completion/complete`:
`struct - Ref interface; Argument mcp.CompleteRequest -`. The ref is an
arbitrary JSON value; an absent argument keeps the zero struct. -/
def unmarshalCompleteParams : Option Json → Except String (Json × Json)
  | none => .error "unexpected end of JSON input"
  | some .null => .ok (.null, .obj [])
  | some (.obj fields) => do
    let ref := (jlookup fields "ref").getD .null
    let arg ← match jlookup fields "argument" with
      | none => Except.ok (Json.obj [])
      | some v => unmarshalCompleteRequest v
    .ok (ref, arg)
  | some _ => .error "cannot unmarshal into struct"

/-- The composed handler objects of an `MCPServer` (package
`server/handlers`, `interface.go`). Each method is modelled as a
function from its decoded arguments to either an error message or the
marshalled JSON of its result (the `ToJSON` output); methods whose Go
signature returns only an error are `Option String` (some = error). -/
structure Handlers where
  resourceList : Option String → Except String Json
  resourceRead : String → Except String Json
  resourceSubscribe : String → Option String
  resourceUnsubscribe : String → Option String
  promptList : Option String → Except String Json
  promptGet : String → List (String × String) → Except String Json
  toolList : Option String → Except String Json
  toolCall : String → Option Json → Except String Json
  systemInitialize : Json → Json → String → Except String Json
  systemPing : Option String
  systemSetLevel : String → Option String
  systemComplete : Json → Json → Except String Json
  notifyHandlers : List (String × (GoNotification → Option String))

/-- Go map lookup in `s.notifyHandlers[method]`: first matching key. -/
def lookupNotify (hs : List (String × (GoNotification → Option String)))
    (method : String) : Option (GoNotification → Option String) :=
  match hs with
  | [] => none
  | (k, h) :: rest => if k = method then some h else lookupNotify rest method

/-- Outcome of `MCPServer.Request`: a successful result (nil or
marshalled JSON), a Go error, or a runtime panic. The dispatch panics in
Go when it calls `Handle` on the nil interface obtained from a missed
`notifyHandlers` map lookup, and when it dereferences the nil
`Capabilities`/`ClientInfo` pointers of `initialize` params. -/
inductive ReqResult where
  | ok (res : Option Json)
  | err (msg : String)
  | panicked

/-- `MCPServer.Request` (server/server.go): the `notifications/` prefix
test followed by the switch over the method string; the Go `switch` is a
sequential comparison chain. -/
def Request (H : Handlers) (method : String) (params : Option Json) : ReqResult :=
  if goHasPrefix method "notifications/" then
    match unmarshalNotification params with
    | .error e => .err ("failed to parse notification: " ++ e)
    | .ok n =>
      match lookupNotify H.notifyHandlers method with
      | none => .panicked
      | some h =>
        match h n with
        | some e => .err e
        | none => .ok none
  else if method = MethodInitialize then
    match unmarshalInitializeParams params with
    | .error e => .err ("failed to parse parameters: " ++ e)
    | .ok p =>
      match p.capabilities, p.clientInfo with
      | some caps, some info =>
        match H.systemInitialize caps info p.protocolVersion with
        | .error e => .err e
        | .ok r => .ok (some r)
      | _, _ => .panicked
  else if method = MethodPing then
    match H.systemPing with
    | some e => .err e
    | none => .ok none
  else if method = MethodResourcesList then
    match unmarshalCursorParams params with
    | .error e => .err ("failed to parse parameters: " ++ e)
    | .ok cursor =>
      match H.resourceList cursor with
      | .error e => .err e
      | .ok r => .ok (some r)
  else if method = MethodResourcesRead then
    match unmarshalURIParams params with
    | .error e => .err ("failed to parse parameters: " ++ e)
    | .ok uri =>
      match H.resourceRead uri with
      | .error e => .err e
      | .ok r => .ok (some r)
  else if method = MethodResourcesSubscribe then
    match unmarshalURIParams params with
    | .error e => .err ("failed to parse parameters: " ++ e)
    | .ok uri =>
      match H.resourceSubscribe uri with
      | some e => .err e
      | none => .ok none
  else if method = MethodResourcesUnsubscribe then
    match unmarshalURIParams params with
    | .error e => .err ("failed to parse parameters: " ++ e)
    | .ok uri =>
      match H.resourceUnsubscribe uri with
      | some e => .err e
      | none => .ok none
  else if method = MethodPromptsList then
    match unmarshalCursorParams params with
    | .error e => .err ("failed to parse parameters: " ++ e)
    | .ok cursor =>
      match H.promptList cursor with
      | .error e => .err e
      | .ok r => .ok (some r)
  else if method = MethodPromptsGet then
    match unmarshalPromptsGetParams params with
    | .error e => .err ("failed to parse parameters: " ++ e)
    | .ok p =>
      match H.promptGet p.1 p.2 with
      | .error e => .err e
      | .ok r => .ok (some r)
  else if method = MethodToolsList then
    match unmarshalCursorParams params with
    | .error e => .err ("failed to parse parameters: " ++ e)
    | .ok cursor =>
      match H.toolList cursor with
      | .error e => .err e
      | .ok r => .ok (some r)
  else if method = MethodToolsCall then
    match unmarshalToolsCallParams params with
    | .error e => .err ("failed to parse parameters: " ++ e)
    | .ok p =>
      match H.toolCall p.1 p.2 with
      | .error e => .err e
      | .ok r => .ok (some r)
  else if method = MethodLoggingSetLevel then
    match unmarshalSetLevelParams params with
    | .error e => .err ("failed to parse parameters: " ++ e)
    | .ok level =>
      match H.systemSetLevel level with
      | some e => .err e
      | none => .ok none
  else if method = MethodCompletionComplete then
    match unmarshalCompleteParams params with
    | .error e => .err ("failed to parse parameters: " ++ e)
    | .ok p =>
      match H.systemComplete p.1 p.2 with
      | .error e => .err e
      | .ok r => .ok (some r)
  else
    .err ("method not found: " ++ method)

/-- The exact-string route table of the switch in `MCPServer.Request`
(spec section 6 lists the same namespace). -/
def recognizedMethods : List String :=
  [MethodInitialize, MethodPing, MethodResourcesList, MethodResourcesRead,
   MethodResourcesSubscribe, MethodResourcesUnsubscribe, MethodPromptsList,
   MethodPromptsGet, MethodToolsList, MethodToolsCall, MethodLoggingSetLevel,
   MethodCompletionComplete]

/-- One outbound wire line of the stdio server: a `mcp.JSONRPCResponse`
(written by `writeResponse`) or a `mcp.JSONRPCError` (written by
`writeError`). A `result = none` models a nil `json.RawMessage`. -/
inductive Outbound where
  | response (id : Json) (result : Option Json)
  | errorResp (id : Json) (code : Int) (message : String)

/-- The error value `handleMessage` returns to the serve loop: nil, a
non-nil Go error, or a panic that escaped from `MCPServer.Request`. -/
inductive HMOutcome where
  | ok
  | errored (msg : String)
  | panicked

/-- `StdioServer.handleMessage` (server/stdio.go): parse the envelope
(`none` models a line that is not valid JSON), reject a wrong `jsonrpc`
version, dispatch via `MCPServer.Request`, and write exactly one
response or error line. Returns the written lines and the Go error
returned to the serve loop. -/
def handleMessage (H : Handlers) (line : Option Json) : List Outbound × HMOutcome :=
  match line with
  | none =>
    ([.errorResp .null ErrorCodeParseError "Parse error"],
     .errored "failed to parse JSON-RPC request")
  | some v =>
    match unmarshalJSONRPCRequest v with
    | .error e =>
      ([.errorResp .null ErrorCodeParseError "Parse error"],
       .errored ("failed to parse JSON-RPC request: " ++ e))
    | .ok req =>
      if req.Jsonrpc ≠ JSONRPCVersion then
        ([.errorResp req.Id ErrorCodeInvalidRequest "Invalid Request"],
         .errored "invalid JSON-RPC version")
      else
        match Request H req.Method req.Params with
        | .panicked => ([], .panicked)
        | .err e =>
          ([.errorResp req.Id ErrorCodeInternalError e],
           .errored ("request handling error: " ++ e))
        | .ok res => ([.response req.Id res], .ok)

/-- The `StdioServer.serve` loop over a finite input prefix: each line
is handled, a handling error is only logged (`handleMessage` never
returns `io.EOF`) and the loop continues with the next line; a panic
escaping `handleMessage` crashes the process, aborting the loop. -/
def serveLines (H : Handlers) : List (Option Json) → List Outbound
  | [] => []
  | l :: rest =>
    match handleMessage H l with
    | (out, .panicked) => out
    | (out, _) => out ++ serveLines H rest

/-- `json.Marshal` of the outbound structs, at the JSON-value level:
struct fields in Go declaration order (`JSONRPCResponse`: Id, Jsonrpc,
Result; `JSONRPCError`: Error, Id, Jsonrpc); a nil `json.RawMessage`
result marshals as JSON null. -/
def marshalOutbound : Outbound → Json
  | .response id result =>
    .obj [("id", id), ("jsonrpc", .str JSONRPCVersion),
          ("result", result.getD .null)]
  | .errorResp id code msg =>
    .obj [("error", .obj [("code", .num code), ("message", .str msg)]),
          ("id", id), ("jsonrpc", .str JSONRPCVersion)]

/-! ### Client correlation engine (client/stdio.go, StdioMCPClient) -/

/-- Two's-complement wrap of a mathematical integer into int64 range,
modelling Go `int64` arithmetic. -/
def int64wrap (x : Int) : Int := (x + 2 ^ 63) % 2 ^ 64 - 2 ^ 63

/-- Go `int64` addition (`atomic.Int64.Add` wraps on overflow). -/
def int64add (a b : Int) : Int := int64wrap (a + b)

/-- The client's `responses sync.Map`: keys are the int64 request ids,
values are the per-request response channels, modelled by tokens. -/
abbrev PendMap := List (Int × Nat)

/-- `sync.Map.Load`. -/
def pendLoad : PendMap → Int → Option Nat
  | [], _ => none
  | (k, ch) :: rest, id => if k = id then some ch else pendLoad rest id

/-- `sync.Map.Delete`. -/
def pendDelete (m : PendMap) (id : Int) : PendMap :=
  m.filter (fun e => !(e.1 == id))

/-- The ids present in the pending table. -/
def pendIds (m : PendMap) : List Int := m.map (·.1)

/-- The Go dynamic type held by an empty-interface value filled by
`encoding/json`: per its documentation, `Unmarshal` stores one of
bool, float64 (for every JSON number), string, a slice, a map, or nil
in an interface value — nothing else. -/
inductive GoDynType where
  | goNil
  | goBool
  | goFloat64
  | goString
  | goSlice
  | goMap

/-- The dynamic type `encoding/json` gives each kind of JSON value
decoded into the `Id interface\x7b\x7d` field. -/
def jsonDynType : Json → GoDynType
  | .null => .goNil
  | .bool _ => .goBool
  | .num _ => .goFloat64
  | .str _ => .goString
  | .arr _ => .goSlice
  | .obj _ => .goMap

/-- The single-value type assertion `response.Id.(int64)` in
`readResponses` (README.md client, lines 121 and 129): it yields the
value only when the interface's dynamic type is exactly int64 and
panics otherwise. None of the dynamic types `encoding/json` can store
in an interface value is int64 (JSON numbers arrive as float64), so
the assertion panics for every decoded id. -/
def idAssertInt64 (id : Json) : Option Int :=
  match jsonDynType id with
  | .goNil => none
  | .goBool => none
  | .goFloat64 => none
  | .goString => none
  | .goSlice => none
  | .goMap => none

/-- The client's view of one decoded `mcp.JSONRPCResponse` line read by
`readResponses` (lines that fail `UnmarshalJSON` are skipped upstream
by the `continue` and never reach the correlation step): the `Id`
interface value as decoded, whether the `Error` field is non-nil, and
the `Result` payload (`none` models a nil raw message). -/
structure WireResponse where
  id : Json
  isErr : Bool
  result : Option Json

/-- What `readResponses` sends on the matched channel: nil to signal an
error condition when `response.Error != nil`, else `response.Result`. -/
def deliveredPayload (r : WireResponse) : Option Json :=
  if r.isErr then none else r.result

/-- Outcome of one `readResponses` iteration: the new table plus the
deliveries made (channel token, payload), or a panic of the reader
goroutine, which kills the process. -/
inductive ReadOutcome where
  | stepped (pend : PendMap) (deliveries : List (Nat × Option Json))
  | panicked

/-- One iteration of the `readResponses` loop body after a successful
`UnmarshalJSON`: first the unchecked assertion `response.Id.(int64)`
runs (panicking when the dynamic type is not int64, which — see
`idAssertInt64` — is the case for every decoded id); only then would
the code `Load` the channel by id, send the payload, and `Delete` the
entry if present, or do nothing if absent. -/
def readStep (pend : PendMap) (r : WireResponse) : ReadOutcome :=
  match idAssertInt64 r.id with
  | none => .panicked
  | some id64 =>
    match pendLoad pend id64 with
    | some ch => .stepped (pendDelete pend id64) [(ch, deliveredPayload r)]
    | none => .stepped pend []

/-- Outcome of the `readResponses` loop over a finite sequence of
decoded responses: the final table and all deliveries in order, or a
crash, with the deliveries made before the panic. -/
inductive RunOutcome where
  | finished (pend : PendMap) (deliveries : List (Nat × Option Json))
  | crashed (deliveries : List (Nat × Option Json))

/-- The `readResponses` loop over a finite sequence of decoded
responses; an unrecovered panic in the reader goroutine aborts the
loop (and the whole process). -/
def readRun (pend : PendMap) : List WireResponse → RunOutcome
  | [] => .finished pend []
  | r :: rest =>
    match readStep pend r with
    | .panicked => .crashed []
    | .stepped p1 d1 =>
      match readRun p1 rest with
      | .finished p2 d2 => .finished p2 (d1 ++ d2)
      | .crashed d2 => .crashed (d1 ++ d2)

/-- Mutable state of a `StdioMCPClient` relevant to `sendRequest`:
the `requestID atomic.Int64` counter, the `responses` pending table,
and the `initialized` flag. -/
structure ClientState where
  requestID : Int
  responses : PendMap
  initialized : Bool

/-- How far `sendRequest` got before its final `select`: the fail-fast
uninitialized error (nothing allocated, nothing written), a params
marshal failure (id already allocated, nothing registered or written),
a stdin write failure (entry registered, write failed), or a request
written to the wire, now awaiting response or cancellation. -/
inductive SendOutcome where
  | failFast
  | marshalErr
  | writeErr (id : Int)
  | awaiting (id : Int) (wire : JSONRPCRequest)

/-- The straight-line part of `StdioMCPClient.sendRequest` up to the
final `select`: the initialized gate, `id := c.requestID.Add(1)`,
params marshalling (`marshalOk` abstracts whether `json.Marshal` of the
non-nil params succeeds), channel registration via `Store(id, ch)`, and
the write of the request envelope (`writeOk` abstracts stdin write
success). -/
def sendPhase (c : ClientState) (method : String) (params : Option Json)
    (marshalOk : Bool) (writeOk : Bool) (ch : Nat) :
    ClientState × SendOutcome :=
  if c.initialized = false ∧ method ≠ "initialize" then (c, .failFast)
  else
    let id := int64add c.requestID 1
    let c1 : ClientState := { c with requestID := id }
    if params.isSome ∧ marshalOk = false then (c1, .marshalErr)
    else
      let c2 : ClientState := { c1 with responses := (id, ch) :: c1.responses }
      if writeOk = false then (c2, .writeErr id)
      else (c2, .awaiting id ⟨.num id, JSONRPCVersion, method, params⟩)

/-- Which arm of `sendRequest`'s final `select` fires first: the
caller's context is cancelled, or the reader delivers a payload on the
request's channel. -/
inductive Fate where
  | cancelled
  | delivered (payload : Option Json)

/-- The final `select` of `sendRequest`: on `ctx.Done()` the pending
entry is deleted and `ctx.Err()` returned; on a delivered nil payload
the call fails with "request failed"; otherwise the payload is the
result. -/
def awaitFate (pend : PendMap) (id : Int) : Fate → PendMap × Except String Json
  | .cancelled => (pendDelete pend id, .error "context cancelled")
  | .delivered none => (pend, .error "request failed")
  | .delivered (some j) => (pend, .ok j)

/-- `StdioMCPClient.Initialize` sets `c.initialized = true` after its
`sendRequest` and result unmarshal succeed. -/
def initializeSuccess (c : ClientState) : ClientState :=
  { c with initialized := true }

/-- The trace of values taken by the `requestID` counter: it starts at
the zero value and each `sendRequest` that passes the initialized gate
executes `id := c.requestID.Add(1)`, so `idSeq n` is the id allocated
by the n-th such call. -/
def idSeq : Nat → Int
  | 0 => 0
  | n + 1 => int64add (idSeq n) 1

/-- A concrete handler assembly instantiating the dispatch model on the
spec's example inputs: each handler mirrors the corresponding default
handler of `server/handlers/default_handlers.go` (in particular
`DefaultSystemHandler.Ping` returns no error), and no notification
handlers are registered, as in `NewMCPServer()` without options. -/
def pingOkHandlers : Handlers where
  resourceList := fun _ => .ok (.obj [("resources", .arr [])])
  resourceRead := fun _ => .ok (.obj [("contents", .arr [.obj [("text", .str ""), ("uri", .str "")]])])
  resourceSubscribe := fun _ => none
  resourceUnsubscribe := fun _ => none
  promptList := fun _ => .ok (.obj [("prompts", .arr [])])
  promptGet := fun _ _ => .ok (.obj [("messages", .arr [])])
  toolList := fun _ => .ok (.obj [("tools", .arr [])])
  toolCall := fun _ _ => .ok (.obj [("content", .arr [.obj [("text", .str ""), ("type", .str "")]])])
  systemInitialize := fun _ info pv =>
    .ok (.obj [("capabilities", .obj [("resources", .obj [("listChanged", .bool true), ("subscribe", .bool true)])]),
               ("protocolVersion", .str pv), ("serverInfo", info)])
  systemPing := none
  systemSetLevel := fun _ => none
  systemComplete := fun _ _ => .ok (.obj [("completion", .obj [("values", .arr [])])])
  notifyHandlers := []

/-! ### Helper lemmas on the pending table and the reader loop -/

theorem pendDelete_not_mem (m : PendMap) (id : Int) :
    id ∉ pendIds (pendDelete m id) := by
  intro h
  rcases List.mem_map.mp h with ⟨e, he, hid⟩
  rcases List.mem_filter.mp he with ⟨_, hne⟩
  simp [hid] at hne

/-- The id assertion fails on every decoded id: no JSON kind decodes to
dynamic type int64. -/
theorem idAssertInt64_eq_none (v : Json) : idAssertInt64 v = none := by
  cases v <;> rfl

/-- Hence every `readResponses` iteration on a decoded response panics
before reaching the table lookup. -/
theorem readStep_always_panics (pend : PendMap) (r : WireResponse) :
    readStep pend r = .panicked := by
  unfold readStep
  rw [idAssertInt64_eq_none]

/-! ### Helper lemmas on int64 arithmetic and the id counter -/

theorem int64wrap_absorb (x y : Int) :
    int64wrap (int64wrap x + y) = int64wrap (x + y) := by
  unfold int64wrap
  rw [show (x + 2 ^ 63) % 2 ^ 64 - 2 ^ 63 + y + 2 ^ 63
      = (x + 2 ^ 63) % 2 ^ 64 + y by ring]
  rw [Int.emod_add_emod]
  rw [show x + 2 ^ 63 + y = x + y + 2 ^ 63 by ring]

theorem idSeq_closed (n : Nat) : idSeq n = int64wrap n := by
  induction n with
  | zero => decide
  | succ n ih =>
    show int64add (idSeq n) 1 = int64wrap (n + 1 : Nat)
    rw [ih]
    unfold int64add
    rw [int64wrap_absorb]
    congr 1

theorem int64wrap_of_lt {n : Nat} (h : n < 2 ^ 63) : int64wrap n = n := by
  unfold int64wrap
  rw [Int.emod_eq_of_lt (by positivity) ?hb]
  · ring
  case hb =>
    have hc : (n : Int) < 2 ^ 63 := by exact_mod_cast h
    have : (2 : Int) ^ 63 + 2 ^ 63 = 2 ^ 64 := by norm_num
    linarith

/-- After the initialized gate passes, every branch of `sendPhase` has
already executed `id := c.requestID.Add(1)`, so the stored counter is
the wrapped increment. -/
theorem sendPhase_requestID (c : ClientState) (method : String)
    (params : Option Json) (mOk wOk : Bool) (ch : Nat)
    (h : ¬ (c.initialized = false ∧ method ≠ "initialize")) :
    ((sendPhase c method params mOk wOk ch).1).requestID
      = int64add c.requestID 1 := by
  unfold sendPhase
  rw [if_neg h]
  split
  · rfl
  · split <;> rfl

/-- After the initialized gate passes, `sendPhase` never reports the
uninitialized fail-fast outcome. -/
theorem sendPhase_not_failFast (c : ClientState) (method : String)
    (params : Option Json) (mOk wOk : Bool) (ch : Nat)
    (h : ¬ (c.initialized = false ∧ method ≠ "initialize")) :
    (sendPhase c method params mOk wOk ch).2 ≠ SendOutcome.failFast := by
  unfold sendPhase
  rw [if_neg h]
  split
  · exact fun hx => SendOutcome.noConfusion hx
  · split
    · exact fun hx => SendOutcome.noConfusion hx
    · exact fun hx => SendOutcome.noConfusion hx

/-! ### Claim theorems -/

/-- C1 (code bug): the reader never correlates anything. The unchecked
assertion `response.Id.(int64)` panics on every response that survives
`UnmarshalJSON` — `encoding/json` stores a JSON-number id as float64
and a string id as string, never int64 — so the process crashes at the
first decoded response and no response is ever delivered to any
caller, for any pending table and any arrival order. Concretely, with
request id 1 pending, the response line for id 1 crashes the run with
zero deliveries. -/
theorem reader_panics_before_any_delivery
    (pend : PendMap) (r : WireResponse) (rest : List WireResponse) :
    idAssertInt64 r.id = none
    ∧ readStep pend r = .panicked
    ∧ readRun pend (r :: rest) = .crashed []
    ∧ readRun [((1 : Int), (10 : Nat))] [⟨.num 1, false, some (.obj [])⟩]
        = .crashed [] := by
  refine ⟨idAssertInt64_eq_none r.id, readStep_always_panics pend r, ?_, rfl⟩
  show (match readStep pend r with
    | .panicked => RunOutcome.crashed []
    | .stepped p1 d1 =>
      match readRun p1 rest with
      | .finished p2 d2 => .finished p2 (d1 ++ d2)
      | .crashed d2 => .crashed (d1 ++ d2)) = .crashed []
  rw [readStep_always_panics pend r]

/-- C7 (code bug): a late or duplicate response — one whose id has no
pending entry left — is not discarded silently: the id assertion
panics before the table lookup would even run, so instead of the
claimed no-delivery no-change no-op the reader goroutine (and with it
the process) dies. Concretely, a second response for the already
completed id 7 (empty table) panics. -/
theorem late_duplicate_response_panics_not_discarded
    (pend : PendMap) (r : WireResponse) :
    readStep pend r = .panicked
    ∧ readStep pend r ≠ .stepped pend []
    ∧ readStep [] ⟨.num 7, false, some .null⟩ = .panicked := by
  refine ⟨readStep_always_panics pend r, ?_, readStep_always_panics [] _⟩
  rw [readStep_always_panics pend r]
  exact fun h => ReadOutcome.noConfusion h

/-- C8 (code bug): the cancellation arm itself behaves as claimed —
`sendRequest`'s `ctx.Done()` branch deletes the pending entry and
returns the context error, not a result — but a response arriving
afterwards for the cancelled id is not silently dropped: the reader
panics at the id assertion before the lookup that would find no
entry. -/
theorem cancel_ok_but_late_response_panics
    (pend : PendMap) (id : Int) (r : WireResponse) :
    (awaitFate pend id .cancelled).2 = .error "context cancelled"
    ∧ id ∉ pendIds (awaitFate pend id .cancelled).1
    ∧ readStep (awaitFate pend id .cancelled).1 r = .panicked :=
  ⟨rfl, pendDelete_not_mem pend id,
   readStep_always_panics (awaitFate pend id .cancelled).1 r⟩

/-- C9: before initialization, any call except `initialize` fails fast
with the uninitialized error — state unchanged, no id allocated,
nothing written; an `initialize` call passes the gate; an initialized
client (in particular one just past a successful `Initialize`, which
sets the flag) is never rejected for this reason. -/
theorem uninitialized_calls_fail_fast
    (c : ClientState) (method : String) (params : Option Json)
    (mOk wOk : Bool) (ch : Nat) :
    (c.initialized = false → method ≠ "initialize" →
      sendPhase c method params mOk wOk ch = (c, .failFast))
    ∧ (method = "initialize" →
      (sendPhase c method params mOk wOk ch).2 ≠ SendOutcome.failFast)
    ∧ (c.initialized = true →
      (sendPhase c method params mOk wOk ch).2 ≠ SendOutcome.failFast)
    ∧ (sendPhase (initializeSuccess c) method params mOk wOk ch).2
        ≠ SendOutcome.failFast := by
  refine ⟨?_, ?_, ?_, ?_⟩
  · intro h1 h2
    unfold sendPhase
    rw [if_pos ⟨h1, h2⟩]
  · intro h
    exact sendPhase_not_failFast c method params mOk wOk ch (by simp [h])
  · intro h
    exact sendPhase_not_failFast c method params mOk wOk ch (by simp [h])
  · exact sendPhase_not_failFast (initializeSuccess c) method params mOk wOk ch
      (by simp [initializeSuccess])

/-- Witness for C9 on a fresh client state. -/
theorem uninitialized_calls_fail_fast_witness :
    ((ClientState.mk 0 [] false).initialized = false
      ∧ "ping" ≠ "initialize")
    ∧ sendPhase (ClientState.mk 0 [] false) "ping" none true true 0
        = (ClientState.mk 0 [] false, .failFast)
    ∧ (sendPhase (ClientState.mk 0 [] false) "initialize" none true true 0).2
        ≠ SendOutcome.failFast
    ∧ (sendPhase (ClientState.mk 0 [] true) "ping" none true true 0).2
        ≠ SendOutcome.failFast :=
  ⟨⟨rfl, by decide⟩,
   (uninitialized_calls_fail_fast (ClientState.mk 0 [] false) "ping" none
      true true 0).1 rfl (by decide),
   (uninitialized_calls_fail_fast (ClientState.mk 0 [] false) "initialize" none
      true true 0).2.1 rfl,
   (uninitialized_calls_fail_fast (ClientState.mk 0 [] true) "ping" none
      true true 0).2.2.1 rfl⟩

/-- C10 counterexample: the id counter is a wrapping int64, so strict
monotonicity of allocated ids fails at the 2^63-th allocation, where
the counter wraps from 2^63 - 1 to -2^63. -/
theorem request_id_wraps_at_int64_max :
    2 ^ 63 - 1 < 2 ^ 63
    ∧ ¬ idSeq (2 ^ 63 - 1) < idSeq (2 ^ 63) := by
  refine ⟨by norm_num, ?_⟩
  rw [idSeq_closed, idSeq_closed]
  decide

/-- C10 amended: on a connection issuing at most 2^63 - 1 requests (so
the int64 counter never overflows), allocated ids are strictly
increasing, hence pairwise distinct and never reused; and every
gate-passing `sendRequest` advances the counter by exactly one
wrapped increment. -/
theorem request_ids_strictly_increasing_before_overflow
    (m n : Nat) (hmn : m < n) (hn : n ≤ 2 ^ 63 - 1)
    (c : ClientState) (method : String) (params : Option Json)
    (mOk wOk : Bool) (ch : Nat) (hc : c.initialized = true) :
    idSeq m < idSeq n
    ∧ ((sendPhase c method params mOk wOk ch).1).requestID
        = int64add c.requestID 1 := by
  constructor
  · have hn' : n < 2 ^ 63 := lt_of_le_of_lt hn (by norm_num)
    have hm' : m < 2 ^ 63 := lt_trans hmn hn'
    rw [idSeq_closed, idSeq_closed, int64wrap_of_lt hm', int64wrap_of_lt hn']
    exact_mod_cast hmn
  · exact sendPhase_requestID c method params mOk wOk ch (by simp [hc])

/-- Witness for the amended C10 at the first two allocations. -/
theorem request_ids_strictly_increasing_before_overflow_witness :
    (1 < 2 ∧ 2 ≤ 2 ^ 63 - 1
      ∧ (ClientState.mk 0 [] true).initialized = true)
    ∧ idSeq 1 < idSeq 2 :=
  ⟨⟨by decide, by norm_num, rfl⟩,
   (request_ids_strictly_increasing_before_overflow 1 2 (by decide)
      (by norm_num) (ClientState.mk 0 [] true) "ping" none true true 0 rfl).1⟩

/-- Handlers as assembled by `NewMCPServer(WithNotificationHandler(
"notifications/initialized", h))` with a handler whose `Handle`
returns an error. -/
def notifyErrHandlers : Handlers :=
  { pingOkHandlers with
    notifyHandlers := [("notifications/initialized", fun _ => some "handler failed")] }

/-- Handlers as assembled by `NewMCPServer(WithNotificationHandler(
"notifications/initialized", h))` with a handler whose `Handle`
returns nil. -/
def notifyOkHandlers : Handlers :=
  { pingOkHandlers with
    notifyHandlers := [("notifications/initialized", fun _ => none)] }

/-- An inbound `notifications/initialized` line (with an id field, so
it passes the envelope's required-field checks, and params that decode
as an `mcp.Notification`). -/
def notifInitLine : Json :=
  .obj [("jsonrpc", .str "2.0"), ("id", .num 1),
        ("method", .str "notifications/initialized"),
        ("params", .obj [("method", .str "notifications/initialized")])]

/-- C2 (code bug): an inbound notification line always produces an
outbound line. When the registered handler returns an error,
`handleMessage` writes an InternalError response to the wire (the
failure is not confined to the dispatch caller); when the handler
succeeds, it writes a success response; and a notification without an
id field fails the envelope's required-id check and draws a ParseError
response. -/
theorem notification_line_produces_outbound_line :
    handleMessage notifyErrHandlers (some notifInitLine)
      = ([.errorResp (.num 1) ErrorCodeInternalError "handler failed"],
         .errored "request handling error: handler failed")
    ∧ handleMessage notifyOkHandlers (some notifInitLine)
      = ([.response (.num 1) none], .ok)
    ∧ (handleMessage notifyOkHandlers (some (.obj [("jsonrpc", .str "2.0"),
        ("method", .str "notifications/initialized")]))).1
      = [.errorResp .null ErrorCodeParseError "Parse error"] :=
  ⟨rfl, rfl, rfl⟩

/-- C6 (code bug): dispatching a notification whose method has no entry
in the notification-handler map is not a silent no-op: the Go code
calls `Handle` on the nil interface produced by the map miss, which
panics; and when the params lack a `method` field the dispatch returns
a parse error to its caller instead of nil. -/
theorem unregistered_notification_dispatch_panics :
    Request pingOkHandlers "notifications/initialized"
        (some (.obj [("method", .str "notifications/initialized")]))
      = .panicked
    ∧ Request pingOkHandlers "notifications/initialized" (some (.obj []))
      = .err "failed to parse notification: field method in Notification: required" :=
  ⟨rfl, rfl⟩

/-- C3 counterexample: on the spec's example input the server emits
exactly one error response with code -32603 (InternalError), not the
claimed -32601 (MethodNotFound). -/
theorem unknown_method_code_is_internal_error :
    handleMessage pingOkHandlers (some (.obj [("jsonrpc", .str "2.0"),
        ("id", .num 6), ("method", .str "unknown/thing")]))
      = ([.errorResp (.num 6) ErrorCodeInternalError
            "method not found: unknown/thing"],
         .errored "request handling error: method not found: unknown/thing")
    ∧ ErrorCodeInternalError ≠ ErrorCodeMethodNotFound :=
  ⟨rfl, by decide⟩

/-- C3 amended: for every method outside the route table and not
prefixed `notifications/`, the dispatch returns the error "method not
found: <method>" and the server emits exactly one error response
echoing the request id — with code InternalError (-32603), since
`handleMessage` maps every dispatch error to InternalError. -/
theorem unknown_method_internal_error_with_name
    (H : Handlers) (method : String) (params : Option Json) (id : Json)
    (hnr : method ∉ recognizedMethods)
    (hnp : goHasPrefix method "notifications/" = false) :
    Request H method params = .err ("method not found: " ++ method)
    ∧ handleMessage H (some (.obj [("id", id), ("jsonrpc", .str JSONRPCVersion),
        ("method", .str method)]))
      = ([.errorResp id ErrorCodeInternalError ("method not found: " ++ method)],
         .errored ("request handling error: " ++ ("method not found: " ++ method))) := by
  have ha : ∀ ps : Option Json, Request H method ps
      = .err ("method not found: " ++ method) := by
    intro ps
    simp only [recognizedMethods, List.mem_cons, List.not_mem_nil, or_false,
      not_or] at hnr
    obtain ⟨h1, h2, h3, h4, h5, h6, h7, h8, h9, h10, h11, h12⟩ := hnr
    unfold Request
    simp [hnp, h1, h2, h3, h4, h5, h6, h7, h8, h9, h10, h11, h12]
  refine ⟨ha params, ?_⟩
  have hu : unmarshalJSONRPCRequest (.obj [("id", id),
      ("jsonrpc", .str JSONRPCVersion), ("method", .str method)])
      = .ok ⟨id, JSONRPCVersion, method, none⟩ := by
    simp [unmarshalJSONRPCRequest, jlookup, JSONRPCVersion]
  simp only [handleMessage, hu]
  simp [ha none, JSONRPCVersion]

/-- Witness for the amended C3 at the spec's example input. -/
theorem unknown_method_internal_error_with_name_witness :
    ("unknown/thing" ∉ recognizedMethods
      ∧ goHasPrefix "unknown/thing" "notifications/" = false)
    ∧ Request pingOkHandlers "unknown/thing" none
        = .err "method not found: unknown/thing" :=
  ⟨⟨by decide, by decide⟩,
   (unknown_method_internal_error_with_name pingOkHandlers "unknown/thing"
      none (.num 6) (by decide) (by decide)).1⟩

/-- C4: a line that is not valid JSON draws exactly one error response
with id null and code ParseError (-32700), and the serve loop goes on
to process the remaining lines (`handleMessage`'s error is logged, not
fatal, since it is never `io.EOF`). -/
theorem parse_error_response_and_loop_continues
    (H : Handlers) (rest : List (Option Json)) :
    handleMessage H none
      = ([.errorResp .null ErrorCodeParseError "Parse error"],
         .errored "failed to parse JSON-RPC request")
    ∧ serveLines H (none :: rest)
      = .errorResp .null ErrorCodeParseError "Parse error" :: serveLines H rest :=
  ⟨rfl, rfl⟩

/-- C5 counterexample: on the spec's ping example with a System handler
whose Ping returns no error, the server's single response marshals with
a `result` field of JSON null — not the empty object `result` the claim
requires. -/
theorem ping_result_null_not_empty_object :
    handleMessage pingOkHandlers (some (.obj [("jsonrpc", .str "2.0"),
        ("id", .num 5), ("method", .str "ping")]))
      = ([.response (.num 5) none], .ok)
    ∧ marshalOutbound (Outbound.response (.num 5) none)
      = .obj [("id", .num 5), ("jsonrpc", .str JSONRPCVersion), ("result", .null)]
    ∧ jlookup [("id", .num 5), ("jsonrpc", .str JSONRPCVersion),
        ("result", .null)] "result" = some .null
    ∧ some Json.null ≠ some (Json.obj []) := by
  refine ⟨rfl, rfl, rfl, fun h => ?_⟩
  exact Json.noConfusion (Option.some.inj h)

/-- C5 amended: ping with id 5 against any handlers whose System
`Ping` returns no error yields exactly one success response echoing
id 5 with a nil result, which marshals as `result: null`. -/
theorem ping_success_response_null_result
    (H : Handlers) (hp : H.systemPing = none) :
    handleMessage H (some (.obj [("jsonrpc", .str "2.0"), ("id", .num 5),
        ("method", .str "ping")]))
      = ([.response (.num 5) none], .ok)
    ∧ marshalOutbound (.response (.num 5) none)
      = .obj [("id", .num 5), ("jsonrpc", .str JSONRPCVersion), ("result", .null)] := by
  refine ⟨?_, rfl⟩
  have hu : unmarshalJSONRPCRequest (.obj [("jsonrpc", .str "2.0"),
      ("id", .num 5), ("method", .str "ping")])
      = .ok ⟨.num 5, "2.0", "ping", none⟩ := rfl
  simp only [handleMessage, hu]
  simp [Request, goHasPrefix, goPrefixList, hp, JSONRPCVersion,
    MethodInitialize, MethodPing]

/-- Witness for the amended C5 with the default-like handlers. -/
theorem ping_success_response_null_result_witness :
    pingOkHandlers.systemPing = none
    ∧ handleMessage pingOkHandlers (some (.obj [("jsonrpc", .str "2.0"),
        ("id", .num 5), ("method", .str "ping")]))
      = ([.response (.num 5) none], .ok) :=
  ⟨rfl, (ping_success_response_null_result pingOkHandlers rfl).1⟩

end GoMCP
